import Mathlib

/-!
Verification of the BVH construction engine of this repository
(src/src/components/layout/RightSideBar/AssetsTab.jsx, classes CWBVHNode,
TriangleInfo and BVHBuilder).

The JavaScript code is shallowly embedded here.  Real-number arithmetic is
modelled with exact rationals; JavaScript 32-bit bitwise operations
(used only in the Morton-code computation) are modelled on Nat with explicit
reductions modulo 2^32.  Mutable state (the reorderedTriangles output array)
is threaded explicitly; the worker-based orchestrator is modelled as a
function of the execution environment.  Fields of the builder object that
only collect diagnostics (splitStats, timings, progress throttling) are not
modelled: no claim mentions them and they do not influence the tree.
-/

set_option maxRecDepth 20000

/-- A 3-component vector of exact rationals, modelling THREE.Vector3 as used
by the builder (the builder only reads and writes x, y, z). -/
structure Vec3 where
  x : ℚ
  y : ℚ
  z : ℚ
deriving DecidableEq, Repr

/-- Vector3.getComponent: component 0 is x, 1 is y, 2 is z.  The builder only
calls it with axis 0, 1 or 2. -/
def Vec3.getComponent (v : Vec3) (axis : ℕ) : ℚ :=
  if axis = 0 then v.x else if axis = 1 then v.y else v.z

/-- Componentwise minimum, modelling Vector3.min. -/
def vmin3 (a b : Vec3) : Vec3 :=
  ⟨min a.x b.x, min a.y b.y, min a.z b.z⟩

/-- Componentwise maximum, modelling Vector3.max. -/
def vmax3 (a b : Vec3) : Vec3 :=
  ⟨max a.x b.x, max a.y b.y, max a.z b.z⟩

/-- A triangle: three vertex positions, exactly the {posA, posB, posC}
records the builder consumes. -/
structure Triangle where
  posA : Vec3
  posB : Vec3
  posC : Vec3
deriving DecidableEq, Repr

/-- An axis-aligned box with finite corners.  The source represents bounds as
{min, max} pairs of Vector3; the inverted-infinity sentinel produced by
folding min/max from (+inf, -inf) over an empty set is represented by
Option Box being none (see updateNodeBoundsOptimized). -/
structure Box where
  min : Vec3
  max : Vec3
deriving DecidableEq, Repr

/-- class TriangleInfo: the per-triangle record with pre-computed centroid and
bounds, the original index, and a Morton code assigned during presorting. -/
structure TriangleInfo where
  triangle : Triangle
  index : ℕ
  centroid : Vec3
  bounds : Box
  mortonCode : ℤ
deriving DecidableEq, Repr

/-- The TriangleInfo constructor: centroid is the mean of the three vertices,
bounds the componentwise min/max of the three vertices, mortonCode starts 0. -/
def mkTriangleInfo (triangle : Triangle) (index : ℕ) : TriangleInfo :=
  { triangle := triangle
    index := index
    centroid :=
      ⟨(triangle.posA.x + triangle.posB.x + triangle.posC.x) / 3,
       (triangle.posA.y + triangle.posB.y + triangle.posC.y) / 3,
       (triangle.posA.z + triangle.posB.z + triangle.posC.z) / 3⟩
    bounds :=
      { min :=
          ⟨min (min triangle.posA.x triangle.posB.x) triangle.posC.x,
           min (min triangle.posA.y triangle.posB.y) triangle.posC.y,
           min (min triangle.posA.z triangle.posB.z) triangle.posC.z⟩
        max :=
          ⟨max (max triangle.posA.x triangle.posB.x) triangle.posC.x,
           max (max triangle.posA.y triangle.posB.y) triangle.posC.y,
           max (max triangle.posA.z triangle.posB.z) triangle.posC.z⟩ }
    mortonCode := 0 }

/-- Used where the source indexes an array at a position that is provably in
range (sortedTriangles[medianIndex]); the default is never reached. -/
def defaultTriangleInfo : TriangleInfo :=
  mkTriangleInfo ⟨⟨0, 0, 0⟩, ⟨0, 0, 0⟩, ⟨0, 0, 0⟩⟩ 0

/-- The configurable fields of the BVHBuilder object, with the constructor's
defaults.  numBins (baseBins) is carried but, as in the source, the bin count
actually used comes from getOptimalBinCount. -/
structure BVHConfig where
  useWorker : Bool
  maxLeafSize : ℕ
  numBins : ℕ
  minBins : ℕ
  maxBins : ℕ
  traversalCost : ℚ
  intersectionCost : ℚ
  useMortonCodes : Bool
  mortonBits : ℕ
  mortonClusterThreshold : ℕ
  enableObjectMedianFallback : Bool
  enableSpatialMedianFallback : Bool
deriving DecidableEq, Repr

/-- The BVHBuilder constructor defaults. -/
def defaultConfig : BVHConfig :=
  { useWorker := true
    maxLeafSize := 8
    numBins := 32
    minBins := 8
    maxBins := 64
    traversalCost := 1
    intersectionCost := 1
    useMortonCodes := true
    mortonBits := 10
    mortonClusterThreshold := 128
    enableObjectMedianFallback := true
    enableSpatialMedianFallback := true }

/-- setMortonConfig: each recognized option is optional; bits is clamped to
[6, 16] and threshold to at least 16. -/
def setMortonConfig (cfg : BVHConfig) (enabled : Option Bool) (bits : Option ℕ)
    (threshold : Option ℕ) : BVHConfig :=
  { cfg with
    useMortonCodes := enabled.getD cfg.useMortonCodes
    mortonBits :=
      match bits with
      | none => cfg.mortonBits
      | some b => max 6 (min 16 b)
    mortonClusterThreshold :=
      match threshold with
      | none => cfg.mortonClusterThreshold
      | some t => max 16 t }

/-- setAdaptiveBinConfig: minBins is clamped to at least 4, maxBins to at
most 128, baseBins taken as given. -/
def setAdaptiveBinConfig (cfg : BVHConfig) (minBins? : Option ℕ) (maxBins? : Option ℕ)
    (baseBins? : Option ℕ) : BVHConfig :=
  { cfg with
    minBins := match minBins? with | none => cfg.minBins | some m => max 4 m
    maxBins := match maxBins? with | none => cfg.maxBins | some m => min 128 m
    numBins := baseBins?.getD cfg.numBins }

/-- setFallbackConfig: per-tier enable flags. -/
def setFallbackConfig (cfg : BVHConfig) (objectMedian? : Option Bool)
    (spatialMedian? : Option Bool) : BVHConfig :=
  { cfg with
    enableObjectMedianFallback := objectMedian?.getD cfg.enableObjectMedianFallback
    enableSpatialMedianFallback := spatialMedian?.getD cfg.enableSpatialMedianFallback }

/-- getOptimalBinCount: adaptive bin count by triangle count. -/
def getOptimalBinCount (cfg : BVHConfig) (triangleCount : ℕ) : ℕ :=
  if triangleCount ≤ 16 then cfg.minBins
  else if triangleCount ≤ 64 then 16
  else if triangleCount ≤ 256 then 32
  else if triangleCount ≤ 1024 then 48
  else cfg.maxBins

/-! ### Morton codes

JavaScript bitwise operators convert their operands to 32-bit integers.  The
bit pattern of the result of a & b equals (a mod 2^32) AND (b mod 2^32), so
the chain in expandBits is modelled on Nat with an explicit reduction modulo
2^32 after each multiplication (the products stay below 2^53, where JS
number multiplication is exact).  Every mask in the chain ends with a final
AND against 0x49249249 < 2^31, so the value expandBits returns is the
nonnegative bit pattern.  The left shifts in morton3D produce signed 32-bit
values, which toInt32 models. -/

/-- The signed 32-bit value whose bit pattern is n mod 2^32 (JS ToInt32). -/
def toInt32 (n : ℕ) : ℤ :=
  if n % 4294967296 < 2147483648 then ((n % 4294967296 : ℕ) : ℤ)
  else ((n % 4294967296 : ℕ) : ℤ) - 4294967296

/-- expandBits: inserts two zero bits after each bit of a 10-bit integer via
the magic-number multiply chain, with JS 32-bit truncation made explicit. -/
def expandBits (value : ℕ) : ℕ :=
  let v1 := ((value * 0x00010001) % 4294967296) &&& 0xFF0000FF
  let v2 := ((v1 * 0x00000101) % 4294967296) &&& 0x0F00F00F
  let v3 := ((v2 * 0x00000011) % 4294967296) &&& 0xC30C30C3
  let v4 := ((v3 * 0x00000005) % 4294967296) &&& 0x49249249
  v4

/-- morton3D: (expandBits z << 2) + (expandBits y << 1) + expandBits x, with
the JS left shifts producing signed 32-bit values and the additions exact. -/
def morton3D (x y z : ℕ) : ℤ :=
  toInt32 (expandBits z <<< 2) + toInt32 (expandBits y <<< 1) + toInt32 (expandBits x)

/-- The normalization, quantization and interleaving of computeMortonCode,
with the bit count as an explicit parameter: computeMortonCode uses
this.mortonBits, and recursiveMortonCluster inlines the identical computation
with the coarser bit count. -/
def mortonCodeWithBits (bits : ℕ) (centroid sceneMin sceneMax : Vec3) : ℤ :=
  let rangeX := sceneMax.x - sceneMin.x
  let rangeY := sceneMax.y - sceneMin.y
  let rangeZ := sceneMax.z - sceneMin.z
  let nX := if rangeX > 0 then (centroid.x - sceneMin.x) / rangeX else centroid.x - sceneMin.x
  let nY := if rangeY > 0 then (centroid.y - sceneMin.y) / rangeY else centroid.y - sceneMin.y
  let nZ := if rangeZ > 0 then (centroid.z - sceneMin.z) / rangeZ else centroid.z - sceneMin.z
  let mortonScale : ℕ := 2 ^ bits - 1
  let qx := (max 0 (min (mortonScale : ℤ) ⌊nX * (mortonScale : ℚ)⌋)).toNat
  let qy := (max 0 (min (mortonScale : ℤ) ⌊nY * (mortonScale : ℚ)⌋)).toNat
  let qz := (max 0 (min (mortonScale : ℤ) ⌊nZ * (mortonScale : ℚ)⌋)).toNat
  morton3D qx qy qz

/-- computeMortonCode of the builder, at the configured bit depth. -/
def computeMortonCode (cfg : BVHConfig) (centroid sceneMin sceneMax : Vec3) : ℤ :=
  mortonCodeWithBits cfg.mortonBits centroid sceneMin sceneMax

/-! ### A stable ascending sort

Array.prototype.sort with a numeric comparator is a stable ascending sort
(ES2019).  It is modelled by insertion sort processing the list left to
right, inserting each element after all already-placed elements that compare
less-or-equal, which preserves the relative order of ties. -/

/-- Insert x after every prefix element y with le y x. -/
def stableInsert {α : Type} (le : α → α → Bool) (x : α) : List α → List α
  | [] => [x]
  | y :: ys => if le y x then y :: stableInsert le x ys else x :: y :: ys

/-- Stable ascending sort by the Boolean comparison le. -/
def stableSort {α : Type} (le : α → α → Bool) (l : List α) : List α :=
  l.foldl (fun acc x => stableInsert le x acc) []

/-- Scene bounds of the centroids, folded with Vector3.min / Vector3.max from
the (+inf, -inf) sentinel; none models the untouched sentinel of an empty
fold, and for a nonempty list the fold equals a fold from the first element. -/
def centroidSceneBounds : List TriangleInfo → Option (Vec3 × Vec3)
  | [] => none
  | t :: ts =>
    some (ts.foldl (fun mm u => (vmin3 mm.1 u.centroid, vmax3 mm.2 u.centroid))
      (t.centroid, t.centroid))

/-- sortTrianglesByMortonCode: skip when disabled or below the clustering
threshold; otherwise assign each info its Morton code from the centroid
scene bounds and stably sort ascending by code. -/
def sortTrianglesByMortonCode (cfg : BVHConfig) (triangleInfos : List TriangleInfo) :
    List TriangleInfo :=
  if cfg.useMortonCodes = false ∨ triangleInfos.length < cfg.mortonClusterThreshold then
    triangleInfos
  else
    match centroidSceneBounds triangleInfos with
    | none => triangleInfos
    | some (sceneMin, sceneMax) =>
      let coded := triangleInfos.map
        (fun t => { t with mortonCode := computeMortonCode cfg t.centroid sceneMin sceneMax })
      stableSort (fun a b => decide (a.mortonCode ≤ b.mortonCode)) coded

/-- recursiveMortonCluster: below maxClusterSize fall back to the one-level
sort; otherwise bucket by a coarse (bits - 2, at least 6)-bit Morton code,
order the buckets by ascending coarse code, and fine-sort each bucket.  The
JS Map keyed by coarse code, with its entries sorted numerically, is modelled
by the sorted list of distinct coarse codes, each paired with the subsequence
of infos having that code. -/
def recursiveMortonCluster (cfg : BVHConfig) (triangleInfos : List TriangleInfo)
    (maxClusterSize : ℕ) : List TriangleInfo :=
  if triangleInfos.length ≤ maxClusterSize then
    sortTrianglesByMortonCode cfg triangleInfos
  else
    match centroidSceneBounds triangleInfos with
    | none => triangleInfos
    | some (sceneMin, sceneMax) =>
      let coarseBits := max 6 (cfg.mortonBits - 2)
      let keyOf := fun (t : TriangleInfo) =>
        mortonCodeWithBits coarseBits t.centroid sceneMin sceneMax
      let sortedKeys :=
        stableSort (fun a b => decide (a ≤ b)) ((triangleInfos.map keyOf).dedup)
      (sortedKeys.map
        (fun k => sortTrianglesByMortonCode cfg
          (triangleInfos.filter (fun t => decide (keyOf t = k))))).flatten

/-! ### Boxes and node bounds -/

/-- Union of two boxes: componentwise min of mins and max of maxes. -/
def boxUnion (a b : Box) : Box :=
  ⟨vmin3 a.min b.min, vmax3 a.max b.max⟩

/-- Union on optional boxes, none being the empty (inverted-infinity)
sentinel, which is the identity of min/max folding. -/
def unionOptBox : Option Box → Option Box → Option Box
  | none, b => b
  | some a, none => some a
  | some a, some b => some (boxUnion a b)

/-- updateNodeBoundsOptimized: fold min/max of the member triangle bounds
from the (+inf, -inf) sentinel.  none models the sentinel left untouched by
an empty fold; for a nonempty list the fold equals a fold from the first
member's box. -/
def updateNodeBoundsOptimized : List TriangleInfo → Option Box
  | [] => none
  | t :: ts => some (ts.foldl (fun b u => boxUnion b u.bounds) t.bounds)

/-- computeSurfaceAreaFromBounds: 2 (dx dy + dy dz + dz dx). -/
def computeSurfaceAreaFromBounds (bmin bmax : Vec3) : ℚ :=
  let dx := bmax.x - bmin.x
  let dy := bmax.y - bmin.y
  let dz := bmax.z - bmin.z
  2 * (dx * dy + dy * dz + dz * dx)

/-! ### Partitioning -/

/-- partitionTrianglesOptimized: a single pass pushing each info whose
centroid component on the axis is at most splitPos onto the left list and the
others onto the right list (the source pushes into reused temp arrays and
returns copies; the pure model folds into a pair of lists). -/
def partitionTrianglesOptimized (triangleInfos : List TriangleInfo) (axis : ℕ)
    (splitPos : ℚ) : List TriangleInfo × List TriangleInfo :=
  triangleInfos.foldl
    (fun acc triInfo =>
      if triInfo.centroid.getComponent axis ≤ splitPos then (acc.1 ++ [triInfo], acc.2)
      else (acc.1, acc.2 ++ [triInfo]))
    ([], [])

/-! ### Split selection: the three-tier fallback chain -/

/-- The record returned by the split selectors: {success, axis, pos, method}.
On failure the source omits axis and pos (JS undefined); the model carries
axis 0 and pos 0 there, values the builder never reads on failure. -/
structure SplitResult where
  success : Bool
  axis : ℕ
  pos : ℚ
  method : String
deriving DecidableEq, Repr

/-- Centroid minimum and maximum on an axis, folded with Math.min / Math.max
from the (+inf, -inf) sentinel; none models the sentinel of an empty fold. -/
def centroidRange (triangleInfos : List TriangleInfo) (axis : ℕ) : Option (ℚ × ℚ) :=
  match triangleInfos with
  | [] => none
  | t :: ts =>
    some (ts.foldl
      (fun mm u =>
        (min mm.1 (u.centroid.getComponent axis), max mm.2 (u.centroid.getComponent axis)))
      (t.centroid.getComponent axis, t.centroid.getComponent axis))

/-- Minimum of the per-triangle box minima and maximum of the box maxima on
an axis (the tier-3 spread uses full primitive boxes, not centroids). -/
def boundsRangeAxis (triangleInfos : List TriangleInfo) (axis : ℕ) : Option (ℚ × ℚ) :=
  match triangleInfos with
  | [] => none
  | t :: ts =>
    some (ts.foldl
      (fun mm u =>
        (min mm.1 (u.bounds.min.getComponent axis), max mm.2 (u.bounds.max.getComponent axis)))
      (t.bounds.min.getComponent axis, t.bounds.max.getComponent axis))

/-- The bin of a centroid component: floor((c - minC) * (binCount / range)),
clamped to the last bin. -/
def binIndexOf (binCount : ℕ) (minC maxC c : ℚ) : ℕ :=
  min (⌊(c - minC) * ((binCount : ℚ) / (maxC - minC))⌋.toNat) (binCount - 1)

/-- findSpatialMedianSplit (tier 3): pick the axis with the largest box
spread; fail if it is below 1e-12; split at the axis midpoint; if one side
would be empty, re-split between distinct neighbouring sorted centroid
values, failing when all centroids coincide. -/
def findSpatialMedianSplit (triangleInfos : List TriangleInfo) : SplitResult :=
  let best := [0, 1, 2].foldl
    (fun (b : Option (ℕ × ℚ × ℚ) × ℚ) axis =>
      match boundsRangeAxis triangleInfos axis with
      | none => b
      | some (mn, mx) => if mx - mn > b.2 then (some (axis, mn, mx), mx - mn) else b)
    (none, -1)
  match best with
  | (none, _) => { success := false, axis := 0, pos := 0, method := "spatial_median_failed" }
  | (some (bestAxis, mn, mx), bestSpread) =>
    if bestSpread < 1 / 1000000000000 then
      { success := false, axis := 0, pos := 0, method := "spatial_median_failed" }
    else
      let splitPos := (mn + mx) * (1 / 2)
      let leftCount := triangleInfos.countP
        (fun t => decide (t.centroid.getComponent bestAxis ≤ splitPos))
      let rightCount := triangleInfos.length - leftCount
      if leftCount = 0 ∨ rightCount = 0 then
        let centroids := stableSort (fun a b => decide (a ≤ b))
          (triangleInfos.map (fun t => t.centroid.getComponent bestAxis))
        let medianIndex := centroids.length / 2
        let medianCentroid := centroids.getD medianIndex 0
        if centroids.getD 0 0 = centroids.getD (centroids.length - 1) 0 then
          { success := false, axis := 0, pos := 0, method := "spatial_median_degenerate" }
        else
          let adjustedSplitPos :=
            if 0 < medianIndex ∧ centroids.getD (medianIndex - 1) 0 ≠ medianCentroid then
              (centroids.getD (medianIndex - 1) 0 + medianCentroid) * (1 / 2)
            else if medianIndex < centroids.length - 1 then
              (medianCentroid + centroids.getD (medianIndex + 1) 0) * (1 / 2)
            else medianCentroid
          { success := true, axis := bestAxis, pos := adjustedSplitPos,
            method := "spatial_median" }
      else
        { success := true, axis := bestAxis, pos := splitPos, method := "spatial_median" }

/-- findObjectMedianSplit (tier 2): pick the axis with the largest centroid
spread; below 1e-10 fall through to tier 3 (when enabled); otherwise split at
the median sorted centroid, nudged to the midpoint with its predecessor if
one side would be empty. -/
def findObjectMedianSplit (cfg : BVHConfig) (triangleInfos : List TriangleInfo) : SplitResult :=
  let best := [0, 1, 2].foldl
    (fun (b : Option ℕ × ℚ) axis =>
      match centroidRange triangleInfos axis with
      | none => b
      | some (mn, mx) => if mx - mn > b.2 then (some axis, mx - mn) else b)
    (none, -1)
  match best with
  | (none, _) =>
    if cfg.enableSpatialMedianFallback then findSpatialMedianSplit triangleInfos
    else { success := false, axis := 0, pos := 0,
           method := "object_median_failed_no_spatial_fallback" }
  | (some bestAxis, bestSpread) =>
    if bestSpread < 1 / 10000000000 then
      if cfg.enableSpatialMedianFallback then findSpatialMedianSplit triangleInfos
      else { success := false, axis := 0, pos := 0,
             method := "object_median_failed_no_spatial_fallback" }
    else
      let sortedTriangles := stableSort
        (fun a b =>
          decide (a.centroid.getComponent bestAxis ≤ b.centroid.getComponent bestAxis))
        triangleInfos
      let medianIndex := sortedTriangles.length / 2
      let medianCentroid :=
        (sortedTriangles.getD medianIndex defaultTriangleInfo).centroid.getComponent bestAxis
      let splitPos := medianCentroid
      let leftCount := triangleInfos.countP
        (fun t => decide (t.centroid.getComponent bestAxis ≤ splitPos))
      if leftCount = 0 ∨ leftCount = triangleInfos.length then
        if 0 < medianIndex then
          let prevCentroid :=
            (sortedTriangles.getD (medianIndex - 1)
              defaultTriangleInfo).centroid.getComponent bestAxis
          { success := true, axis := bestAxis, pos := (prevCentroid + medianCentroid) * (1 / 2),
            method := "object_median" }
        else
          if cfg.enableSpatialMedianFallback then findSpatialMedianSplit triangleInfos
          else { success := false, axis := 0, pos := 0,
                 method := "object_median_degenerate_no_spatial_fallback" }
      else
        { success := true, axis := bestAxis, pos := splitPos, method := "object_median" }

/-- One axis of the binned-SAH scan.  The per-bin count and bounds
accumulators, and their prefix/suffix accumulation at each candidate plane,
are modelled directly: the triangles left of plane i are those whose bin
index is below i, and the accumulated left (right) bounds are the union of
their boxes; bins with count 0 contribute the untouched sentinel, the
identity of the union.  Candidates are scanned in ascending plane order and a
candidate replaces the best only when strictly cheaper (and cheaper than the
leaf cost), exactly the source's update condition with bestCost starting at
infinity. -/
def sahEvalAxis (cfg : BVHConfig) (triangleInfos : List TriangleInfo) (parentSA leafCost : ℚ)
    (binCount : ℕ) (axis : ℕ) (best0 : Option (ℚ × ℕ × ℚ)) : Option (ℚ × ℕ × ℚ) :=
  match centroidRange triangleInfos axis with
  | none => best0
  | some (minCentroid, maxCentroid) =>
    if maxCentroid - minCentroid < 1 / 1000000 then best0
    else
      (List.range' 1 (binCount - 1)).foldl
        (fun best i =>
          let inLeft := fun (t : TriangleInfo) =>
            binIndexOf binCount minCentroid maxCentroid (t.centroid.getComponent axis) < i
          let leftTris := triangleInfos.filter (fun t => decide (inLeft t))
          let rightTris := triangleInfos.filter (fun t => decide (¬ inLeft t))
          if leftTris.length = 0 ∨ rightTris.length = 0 then best
          else
            match updateNodeBoundsOptimized leftTris, updateNodeBoundsOptimized rightTris with
            | some lb, some rb =>
              let leftSA := computeSurfaceAreaFromBounds lb.min lb.max
              let rightSA := computeSurfaceAreaFromBounds rb.min rb.max
              let cost := cfg.traversalCost
                + leftSA / parentSA * (leftTris.length : ℚ) * cfg.intersectionCost
                + rightSA / parentSA * (rightTris.length : ℚ) * cfg.intersectionCost
              let pos := minCentroid
                + (maxCentroid - minCentroid) * (i : ℚ) / (binCount : ℚ)
              match best with
              | none => if cost < leafCost then some (cost, axis, pos) else best
              | some (bestCost, _, _) =>
                if cost < bestCost ∧ cost < leafCost then some (cost, axis, pos) else best
            | _, _ => best)
        best0

/-- findBestSplitPositionSAH (tier 1, falling through to tiers 2 and 3): scan
the three axes with the adaptive bin count; when no plane beats the leaf
cost, hand over to the enabled fallbacks.  The parent surface area comes from
the node bounds computed on entry to buildNodeRecursive; the none case
(empty node) is unreachable because the builder only asks for a split when
more than maxLeafSize triangles are present. -/
def findBestSplitPositionSAH (cfg : BVHConfig) (triangleInfos : List TriangleInfo)
    (parentBounds : Option Box) : SplitResult :=
  let parentSA :=
    match parentBounds with
    | some b => computeSurfaceAreaFromBounds b.min b.max
    | none => 0
  let leafCost := cfg.intersectionCost * (triangleInfos.length : ℚ)
  let binCount := getOptimalBinCount cfg triangleInfos.length
  let best := [0, 1, 2].foldl
    (fun b axis => sahEvalAxis cfg triangleInfos parentSA leafCost binCount axis b) none
  match best with
  | some (_, ax, pos) => { success := true, axis := ax, pos := pos, method := "SAH" }
  | none =>
    if cfg.enableObjectMedianFallback then findObjectMedianSplit cfg triangleInfos
    else if cfg.enableSpatialMedianFallback then findSpatialMedianSplit triangleInfos
    else { success := false, axis := 0, pos := 0, method := "fallbacks_disabled" }

/-! ### The node type and the recursive builder -/

/-- class CWBVHNode: bounds, two nullable children, and the leaf range into
the reordered triangle array.  The constructor initializes the children to
null and offset and count to 0; internal nodes keep those zeros. -/
inductive BVHNode : Type where
  | mk (bounds : Option Box) (leftChild rightChild : Option BVHNode)
    (triangleOffset triangleCount : ℕ)

/-- The bounds field of a node. -/
def nodeBounds : BVHNode → Option Box
  | .mk b _ _ _ _ => b

/-- The leftChild field of a node. -/
def nodeLeftChild : BVHNode → Option BVHNode
  | .mk _ l _ _ _ => l

/-- The rightChild field of a node. -/
def nodeRightChild : BVHNode → Option BVHNode
  | .mk _ _ r _ _ => r

/-- The triangleOffset field of a node. -/
def nodeTriangleOffset : BVHNode → ℕ
  | .mk _ _ _ off _ => off

/-- The triangleCount field of a node. -/
def nodeTriangleCount : BVHNode → ℕ
  | .mk _ _ _ _ cnt => cnt

/-- The leaf-emission block that buildNodeRecursive repeats at each of its
three leaf exits (lines 1215-1226, 1238-1249 and 1277-1288 of the source):
record the current output length as the offset, the subset size as the
count, and append the subset's triangles to the output in subset order. -/
def emitLeaf (bounds : Option Box) (triangleInfos : List TriangleInfo)
    (reorderedTriangles : List Triangle) : BVHNode × List Triangle :=
  (.mk bounds none none reorderedTriangles.length triangleInfos.length,
   reorderedTriangles ++ triangleInfos.map (fun t => t.triangle))

/-- buildNodeRecursive: compute the node bounds, emit a leaf when the subset
is small enough or the depth budget is exhausted (the source tests
length <= maxLeafSize || depth <= 0; with a natural-number depth the second
disjunct is depth = 0), otherwise ask the split selector, absorb a failed
split or a one-sided partition as a leaf, and otherwise recurse left then
right with the depth budget decremented. -/
def buildNodeRecursive (cfg : BVHConfig) (triangleInfos : List TriangleInfo) (depth : ℕ)
    (reorderedTriangles : List Triangle) : BVHNode × List Triangle :=
  let bounds := updateNodeBoundsOptimized triangleInfos
  match depth with
  | 0 => emitLeaf bounds triangleInfos reorderedTriangles
  | d + 1 =>
    if triangleInfos.length ≤ cfg.maxLeafSize then
      emitLeaf bounds triangleInfos reorderedTriangles
    else
      let splitInfo := findBestSplitPositionSAH cfg triangleInfos bounds
      if splitInfo.success = false then
        emitLeaf bounds triangleInfos reorderedTriangles
      else
        let parts := partitionTrianglesOptimized triangleInfos splitInfo.axis splitInfo.pos
        if parts.1.length = 0 ∨ parts.2.length = 0 then
          emitLeaf bounds triangleInfos reorderedTriangles
        else
          let leftRes := buildNodeRecursive cfg parts.1 d reorderedTriangles
          let rightRes := buildNodeRecursive cfg parts.2 d leftRes.2
          (.mk bounds (some leftRes.1) (some rightRes.1) 0 0, rightRes.2)

/-- buildSync: wrap each triangle in a TriangleInfo tagged with its original
index, presort (two-level clustering above 50000 triangles, one-level Morton
sort otherwise), and run the recursive builder.  Returns the root together
with the final reorderedTriangles array, whose threading models the in-place
writes to the array passed by the caller. -/
def buildSync (cfg : BVHConfig) (triangles : List Triangle) (depth : ℕ)
    (reorderedTriangles : List Triangle) : BVHNode × List Triangle :=
  let triangleInfos := triangles.enum.map (fun p => mkTriangleInfo p.2 p.1)
  let sortedInfos :=
    if triangleInfos.length > 50000 then recursiveMortonCluster cfg triangleInfos 10000
    else sortTrianglesByMortonCode cfg triangleInfos
  buildNodeRecursive cfg sortedInfos depth reorderedTriangles

/-! ### The orchestrator

BVHWorker.js is not part of the sources under verification; only its name and
the message protocol appear in build().  The worker-side behaviour is
modelled from the spec: the worker runs the same pipeline in an isolated
context and posts either a completion message carrying the root and the
reordered triangle order, or an error message; the orchestrator copies the
completed order back into the caller's array.  The execution environment
(whether Worker exists, whether its construction throws, and what a running
worker would post) is an explicit parameter. -/
inductive WorkerMode : Type where
  /-- useWorker is false or Worker is undefined: the synchronous branch. -/
  | noWorker
  /-- the Worker constructor throws: the catch block falls back to buildSync. -/
  | createFails
  /-- Modelled from the spec: the worker completes and posts the root and the
  reordered triangle order. -/
  | runsOk
  /-- Modelled from the spec: the worker posts an error message, which the
  orchestrator turns into a rejection. -/
  | runtimeError (msg : String)
deriving DecidableEq

/-- build: the promise either rejects with an error (modelled by Except.error)
or resolves with the root; the second component of the ok payload is the
state of the caller-supplied triangle array after resolution.  In the
noWorker and createFails branches the source calls
buildSync(triangles, depth, [], cb): the reordered output goes into a fresh
empty array and the caller's array is left as passed.  In the worker branch
the orchestrator overwrites the caller's array with the completed order. -/
def build (cfg : BVHConfig) (mode : WorkerMode) (triangles : List Triangle)
    (depth : ℕ) : Except String (BVHNode × List Triangle) :=
  match mode with
  | .noWorker => .ok ((buildSync cfg triangles depth []).1, triangles)
  | .createFails => .ok ((buildSync cfg triangles depth []).1, triangles)
  | .runsOk =>
    let r := buildSync cfg triangles depth []
    .ok (r.1, r.2)
  | .runtimeError msg => .error msg

/-! ### Observers of the built tree -/

/-- The leaf ranges (offset, count) of a tree in traversal order.  A node
with both children present is internal; any other node is read as a leaf
(the builder never produces a node with exactly one child, see the
well-formedness theorem). -/
def leafRanges : BVHNode → List (ℕ × ℕ)
  | .mk _ (some l) (some r) _ _ => leafRanges l ++ leafRanges r
  | .mk _ _ _ off cnt => [(off, cnt)]

/-- Number of leaves of a tree. -/
def numLeaves : BVHNode → ℕ
  | .mk _ (some l) (some r) _ _ => numLeaves l + numLeaves r
  | .mk _ _ _ _ _ => 1

/-- Sum of the counts of a list of (offset, count) ranges. -/
def sumCounts (rs : List (ℕ × ℕ)) : ℕ :=
  (rs.map (fun r => r.2)).sum

/-- The ranges tile the integers starting at start: each range begins where
the previous one ended, with no gap and no overlap. -/
def isConsecutive : List (ℕ × ℕ) → ℕ → Bool
  | [], _ => true
  | r :: rest, start => decide (r.1 = start) && isConsecutive rest (start + r.2)

/-- Structural well-formedness: every node has both children (internal) or
no child and a positive triangle count (leaf); a node with exactly one child
or an empty leaf is malformed. -/
def wellFormed : BVHNode → Bool
  | .mk _ (some l) (some r) _ _ => wellFormed l && wellFormed r
  | .mk _ none none _ cnt => decide (0 < cnt)
  | .mk _ _ _ _ _ => false

/-- Every internal node's bounds equal the union of its children's bounds,
recursively. -/
def boundsLinked : BVHNode → Bool
  | .mk b (some l) (some r) _ _ =>
    decide (b = unionOptBox (nodeBounds l) (nodeBounds r)) && boundsLinked l && boundsLinked r
  | .mk _ _ _ _ _ => true

/-- The leaf predicate claimed in the spec's testable properties: every leaf
has count at most maxLeaf or sits at remaining depth 0, tracking the
builder's depth decrement. -/
def leafDepthOK (maxLeaf : ℕ) : BVHNode → ℕ → Bool
  | .mk _ (some l) (some r) _ _, d => leafDepthOK maxLeaf l (d - 1) && leafDepthOK maxLeaf r (d - 1)
  | .mk _ _ _ _ cnt, d => decide (cnt ≤ maxLeaf) || decide (d = 0)

/-- The split attempt on this subset is absorbed into a leaf: the three-tier
selector reports failure, or the partition it proposes leaves one side
empty. -/
def splitAbsorbed (cfg : BVHConfig) (triangleInfos : List TriangleInfo) : Prop :=
  let si := findBestSplitPositionSAH cfg triangleInfos (updateNodeBoundsOptimized triangleInfos)
  si.success = false ∨
    (partitionTrianglesOptimized triangleInfos si.axis si.pos).1.length = 0 ∨
    (partitionTrianglesOptimized triangleInfos si.axis si.pos).2.length = 0

/-- Every leaf has count at most maxLeafSize, or sits at remaining depth 0,
or carries a triangle subset (matching its count and bounds) on which the
split attempt was absorbed. -/
def leafsAbsorbed (cfg : BVHConfig) : BVHNode → ℕ → Prop
  | .mk _ (some l) (some r) _ _, d => leafsAbsorbed cfg l (d - 1) ∧ leafsAbsorbed cfg r (d - 1)
  | .mk b _ _ _ cnt, d =>
    cnt ≤ cfg.maxLeafSize ∨ d = 0 ∨
      ∃ triangleInfos : List TriangleInfo,
        triangleInfos.length = cnt ∧ updateNodeBoundsOptimized triangleInfos = b ∧
          splitAbsorbed cfg triangleInfos

/-- The key interleaving described by the spec, as a reference definition:
spreadBitsAux b v places the low b bits of v at positions 0, 3, 6, ... -/
def spreadBitsAux : ℕ → ℕ → ℕ
  | 0, _ => 0
  | b + 1, v => v % 2 + 8 * spreadBitsAux b (v / 2)

/-- Modelled from the spec: the bit-by-bit interleaving of three B-bit
integers into a single 3B-bit key, x taking bit positions 0 mod 3, y the
positions 1 mod 3 and z the positions 2 mod 3. -/
def interleave3 (bits x y z : ℕ) : ℕ :=
  spreadBitsAux bits x + 2 * spreadBitsAux bits y + 4 * spreadBitsAux bits z

/-- The conjunction of the structural facts the recursive builder guarantees:
the output array extends the incoming one by a permutation of the subset's
triangles; the leaf ranges tile consecutively from the incoming length and
their counts sum to the subset size; the tree is well formed for nonempty
subsets; the node's bounds are the fold of the subset's boxes; every internal
node's bounds are the union of its children's; and every oversized leaf above
depth 0 comes from an absorbed split. -/
def BuildInvariant (cfg : BVHConfig) (depth : ℕ) (triangleInfos : List TriangleInfo)
    (reordered : List Triangle) (res : BVHNode × List Triangle) : Prop :=
  (∃ tl, res.2 = reordered ++ tl ∧ tl.Perm (triangleInfos.map (fun t => t.triangle))) ∧
  isConsecutive (leafRanges res.1) reordered.length = true ∧
  sumCounts (leafRanges res.1) = triangleInfos.length ∧
  (triangleInfos ≠ [] → wellFormed res.1 = true) ∧
  nodeBounds res.1 = updateNodeBoundsOptimized triangleInfos ∧
  boundsLinked res.1 = true ∧
  leafsAbsorbed cfg res.1 depth

/-! ### Concrete inputs used by the witnesses and counterexamples -/

/-- A nondegenerate triangle with centroid (cx, 1, 0): vertices
(cx-1, 0, 0), (cx+1, 0, 0) and (cx, 3, 0). -/
def mkTri (cx : ℚ) : Triangle :=
  ⟨⟨cx - 1, 0, 0⟩, ⟨cx + 1, 0, 0⟩, ⟨cx, 3, 0⟩⟩

/-- Nine triangles that force exactly one split, given in an input order
(the rightmost triangle first) that the leaf emission does not reproduce. -/
def ex9 : List Triangle :=
  [mkTri 8, mkTri 0, mkTri 1, mkTri 2, mkTri 3, mkTri 4, mkTri 5, mkTri 6, mkTri 7]

/-- Ten triangles with distinct, evenly spread centroids on the x axis. -/
def ex10even : List Triangle :=
  [mkTri 0, mkTri 3, mkTri 6, mkTri 9, mkTri 12, mkTri 15, mkTri 18, mkTri 21,
   mkTri 24, mkTri 27]

/-- Ten triangles with distinct centroids, nine clustered at x = 0..8 and one
far away at x = 1000. -/
def ex10cluster : List Triangle :=
  [mkTri 0, mkTri 1, mkTri 2, mkTri 3, mkTri 4, mkTri 5, mkTri 6, mkTri 7, mkTri 8,
   mkTri 1000]

/-- A triangle of size o whose centroid is exactly the origin. -/
def mkDegTri (o : ℚ) : Triangle :=
  ⟨⟨-o, -o, -o⟩, ⟨o, -o, o⟩, ⟨0, 2 * o, 0⟩⟩

/-- Nine triangles of different sizes sharing the centroid (0, 0, 0): every
split tier fails on them. -/
def ex9deg : List Triangle :=
  [mkDegTri 1, mkDegTri 2, mkDegTri 3, mkDegTri 4, mkDegTri 5, mkDegTri 6, mkDegTri 7,
   mkDegTri 8, mkDegTri 9]

/-- A configuration whose clustering threshold is lowered to the clamp
minimum of 16, used to exercise the presort on a 16-triangle input. -/
def cfg16 : BVHConfig := setMortonConfig defaultConfig none none (some 16)

/-- Sixteen TriangleInfos with spread centroids, enough to reach the
presort's clustering threshold in cfg16. -/
def infos16 : List TriangleInfo :=
  (List.range 16).map (fun (i : ℕ) => mkTriangleInfo (mkTri (i : ℚ)) i)

/-! ### Lemmas about the stable sort -/

theorem stableInsert_perm {α : Type} (le : α → α → Bool) (x : α) :
    ∀ l : List α, (stableInsert le x l).Perm (x :: l) := by
  intro l
  induction l with
  | nil => simp [stableInsert]
  | cons y ys ih =>
    simp only [stableInsert]
    split
    · exact (ih.cons y).trans (List.Perm.swap x y ys)
    · exact List.Perm.refl _

theorem stableSort_perm {α : Type} (le : α → α → Bool) (l : List α) :
    (stableSort le l).Perm l := by
  have h : ∀ (l acc : List α),
      (l.foldl (fun a x => stableInsert le x a) acc).Perm (acc ++ l) := by
    intro l
    induction l with
    | nil => intro acc; simp
    | cons x xs ih =>
      intro acc
      refine (ih (stableInsert le x acc)).trans ?_
      refine ((stableInsert_perm le x acc).append_right xs).trans ?_
      simpa using List.perm_middle.symm
  simpa using h l []

theorem stableInsert_pairwise {α : Type} (le : α → α → Bool)
    (htot : ∀ a b, le a b = true ∨ le b a = true)
    (htrans : ∀ a b c, le a b = true → le b c = true → le a c = true)
    (x : α) : ∀ l : List α, l.Pairwise (fun a b => le a b = true) →
      (stableInsert le x l).Pairwise (fun a b => le a b = true) := by
  intro l
  induction l with
  | nil => intro _; simp [stableInsert]
  | cons y ys ih =>
    intro hp
    rw [List.pairwise_cons] at hp
    simp only [stableInsert]
    split
    · rename_i hyx
      rw [List.pairwise_cons]
      refine ⟨?_, ih hp.2⟩
      intro z hz
      rcases List.mem_cons.mp ((stableInsert_perm le x ys).mem_iff.mp hz) with h | h
      · subst h; exact hyx
      · exact hp.1 z h
    · rename_i hyx
      have hxy : le x y = true := by
        rcases htot x y with h | h
        · exact h
        · exact absurd h (by simpa using hyx)
      rw [List.pairwise_cons]
      refine ⟨?_, List.pairwise_cons.mpr hp⟩
      intro z hz
      rcases List.mem_cons.mp hz with h | h
      · subst h; exact hxy
      · exact htrans x y z hxy (hp.1 z h)

theorem stableSort_pairwise {α : Type} (le : α → α → Bool)
    (htot : ∀ a b, le a b = true ∨ le b a = true)
    (htrans : ∀ a b c, le a b = true → le b c = true → le a c = true)
    (l : List α) : (stableSort le l).Pairwise (fun a b => le a b = true) := by
  have h : ∀ (l acc : List α), acc.Pairwise (fun a b => le a b = true) →
      ((l.foldl (fun a x => stableInsert le x a) acc).Pairwise
        (fun a b => le a b = true)) := by
    intro l
    induction l with
    | nil => intro acc h; simpa using h
    | cons x xs ih =>
      intro acc h
      exact ih _ (stableInsert_pairwise le htot htrans x acc h)
  exact h l [] (by simp)

/-! ### The partition pass is the pair of complementary filters -/

theorem partitionTrianglesOptimized_eq (triangleInfos : List TriangleInfo) (axis : ℕ)
    (splitPos : ℚ) :
    partitionTrianglesOptimized triangleInfos axis splitPos =
      (triangleInfos.filter (fun t => decide (t.centroid.getComponent axis ≤ splitPos)),
       triangleInfos.filter (fun t => ! decide (t.centroid.getComponent axis ≤ splitPos))) := by
  have h : ∀ (l : List TriangleInfo) (accl accr : List TriangleInfo),
      (l.foldl
        (fun acc triInfo =>
          if triInfo.centroid.getComponent axis ≤ splitPos then (acc.1 ++ [triInfo], acc.2)
          else (acc.1, acc.2 ++ [triInfo]))
        (accl, accr))
        = (accl ++ l.filter (fun t => decide (t.centroid.getComponent axis ≤ splitPos)),
           accr ++ l.filter (fun t => ! decide (t.centroid.getComponent axis ≤ splitPos))) := by
    intro l
    induction l with
    | nil => intro accl accr; simp
    | cons t ts ih =>
      intro accl accr
      by_cases hc : t.centroid.getComponent axis ≤ splitPos
      · simp [List.foldl_cons, hc, ih, List.filter_cons]
      · simp [List.foldl_cons, hc, ih, List.filter_cons]
  simpa [partitionTrianglesOptimized] using h triangleInfos [] []

/-! ### Box-union algebra -/

theorem boxUnion_assoc (a b c : Box) : boxUnion (boxUnion a b) c = boxUnion a (boxUnion b c) := by
  simp [boxUnion, vmin3, vmax3, min_assoc, max_assoc]

theorem boxUnion_comm (a b : Box) : boxUnion a b = boxUnion b a := by
  simp [boxUnion, vmin3, vmax3, min_comm, max_comm]

theorem unionOptBox_assoc (a b c : Option Box) :
    unionOptBox (unionOptBox a b) c = unionOptBox a (unionOptBox b c) := by
  cases a <;> cases b <;> cases c <;> simp [unionOptBox, boxUnion_assoc]

theorem unionOptBox_comm (a b : Option Box) : unionOptBox a b = unionOptBox b a := by
  cases a <;> cases b <;> simp [unionOptBox, boxUnion_comm]

theorem unionOptBox_left_comm (x a b : Option Box) :
    unionOptBox x (unionOptBox a b) = unionOptBox a (unionOptBox x b) := by
  rw [← unionOptBox_assoc, unionOptBox_comm x a, unionOptBox_assoc]

theorem foldl_boxUnion_assoc (l : List TriangleInfo) :
    ∀ a b : Box, l.foldl (fun acc u => boxUnion acc u.bounds) (boxUnion a b)
      = boxUnion a (l.foldl (fun acc u => boxUnion acc u.bounds) b) := by
  induction l with
  | nil => intro a b; simp
  | cons t ts ih =>
    intro a b
    simp only [List.foldl_cons]
    rw [boxUnion_assoc, ih]

theorem updateNodeBoundsOptimized_cons (t : TriangleInfo) (ts : List TriangleInfo) :
    updateNodeBoundsOptimized (t :: ts)
      = unionOptBox (some t.bounds) (updateNodeBoundsOptimized ts) := by
  cases ts with
  | nil => simp [updateNodeBoundsOptimized, unionOptBox]
  | cons u us =>
    simp only [updateNodeBoundsOptimized, unionOptBox, List.foldl_cons]
    rw [foldl_boxUnion_assoc]

theorem updateNodeBoundsOptimized_filter_partition (p : TriangleInfo → Bool)
    (l : List TriangleInfo) :
    updateNodeBoundsOptimized l
      = unionOptBox (updateNodeBoundsOptimized (l.filter p))
          (updateNodeBoundsOptimized (l.filter (fun t => ! p t))) := by
  induction l with
  | nil => simp [updateNodeBoundsOptimized, unionOptBox]
  | cons t ts ih =>
    by_cases hp : p t
    · simp only [List.filter_cons, hp, Bool.not_true, if_pos, if_neg, Bool.false_eq_true,
        not_false_iff, ite_true, ite_false]
      rw [updateNodeBoundsOptimized_cons, updateNodeBoundsOptimized_cons, ih,
        ← unionOptBox_assoc]
    · simp only [List.filter_cons, hp, Bool.not_false, if_pos, if_neg, Bool.false_eq_true,
        not_false_iff, ite_true, ite_false]
      rw [updateNodeBoundsOptimized_cons, ih, unionOptBox_left_comm,
        updateNodeBoundsOptimized_cons]

/-! ### Tiling lemmas for leaf ranges -/

theorem sumCounts_append (a b : List (ℕ × ℕ)) :
    sumCounts (a ++ b) = sumCounts a + sumCounts b := by
  simp [sumCounts]

theorem isConsecutive_append (a b : List (ℕ × ℕ)) :
    ∀ s, isConsecutive (a ++ b) s
      = (isConsecutive a s && isConsecutive b (s + sumCounts a)) := by
  induction a with
  | nil => intro s; simp [isConsecutive, sumCounts]
  | cons r rest ih =>
    intro s
    simp [isConsecutive, ih, sumCounts, Bool.and_assoc, Nat.add_assoc]

theorem isConsecutive_countP (rs : List (ℕ × ℕ)) :
    ∀ s, isConsecutive rs s = true →
      ∀ k, rs.countP (fun r => decide (r.1 ≤ k ∧ k < r.1 + r.2))
        = if s ≤ k ∧ k < s + sumCounts rs then 1 else 0 := by
  induction rs with
  | nil =>
    intro s _ k
    simp only [List.countP_nil, sumCounts, List.map_nil, List.sum_nil]
    split
    · omega
    · rfl
  | cons r rest ih =>
    intro s hc k
    simp only [isConsecutive, Bool.and_eq_true, decide_eq_true_eq] at hc
    obtain ⟨hr, hrest⟩ := hc
    rw [List.countP_cons, ih (s + r.2) hrest k]
    have hsum : sumCounts (r :: rest) = r.2 + sumCounts rest := by simp [sumCounts]
    rw [hsum, hr]
    simp only [decide_eq_true_eq]
    split_ifs <;> omega

/-! ### The presorting passes permute the triangles -/

theorem map_triangle_map_set (f : TriangleInfo → TriangleInfo)
    (hf : ∀ t, (f t).triangle = t.triangle) (l : List TriangleInfo) :
    (l.map f).map (fun t => t.triangle) = l.map (fun t => t.triangle) := by
  rw [List.map_map]
  exact List.map_congr_left (fun a _ => hf a)

theorem sortTrianglesByMortonCode_map_triangle (cfg : BVHConfig) (l : List TriangleInfo) :
    ((sortTrianglesByMortonCode cfg l).map (fun t => t.triangle)).Perm
      (l.map (fun t => t.triangle)) := by
  unfold sortTrianglesByMortonCode
  split
  · exact List.Perm.refl _
  · split
    · exact List.Perm.refl _
    · rename_i sceneMin sceneMax heq
      refine ((stableSort_perm _ _).map _).trans ?_
      rw [map_triangle_map_set
        (fun t => { t with mortonCode := computeMortonCode cfg t.centroid sceneMin sceneMax })
        (fun t => rfl)]

theorem flatten_filter_perm {α K : Type} [DecidableEq K] (key : α → K) :
    ∀ (ks : List K) (l : List α), ks.Nodup → (∀ x ∈ l, key x ∈ ks) →
      ((ks.map (fun k => l.filter (fun x => decide (key x = k)))).flatten).Perm l := by
  intro ks
  induction ks with
  | nil =>
    intro l _ hcov
    cases l with
    | nil => simp
    | cons x xs => exact absurd (hcov x (by simp)) (by simp)
  | cons k ks ih =>
    intro l hnd hcov
    simp only [List.map_cons, List.flatten_cons]
    have hnd' := List.nodup_cons.mp hnd
    have hmapeq : ks.map (fun k' => l.filter (fun x => decide (key x = k')))
        = ks.map (fun k' =>
            (l.filter (fun x => ! decide (key x = k))).filter
              (fun x => decide (key x = k'))) := by
      apply List.map_congr_left
      intro k' hk'
      have hkk' : k' ≠ k := fun h => hnd'.1 (h ▸ hk')
      rw [List.filter_filter]
      apply List.filter_congr
      intro x _
      by_cases h : key x = k'
      · simp [h, hkk']
      · simp [h]
    rw [hmapeq]
    have hcov' : ∀ x ∈ l.filter (fun x => ! decide (key x = k)), key x ∈ ks := by
      intro x hx
      have hx' := List.mem_filter.mp hx
      rcases List.mem_cons.mp (hcov x hx'.1) with h | h
      · exact absurd h (by simpa using hx'.2)
      · exact h
    have hperm := ih (l.filter (fun x => ! decide (key x = k))) hnd'.2 hcov'
    exact ((List.Perm.refl (l.filter (fun x => decide (key x = k)))).append hperm).trans
      (List.filter_append_perm _ l)

theorem flatten_perm_of_pointwise {α : Type} (f g : ℤ → List α) (ks : List ℤ)
    (h : ∀ k ∈ ks, (f k).Perm (g k)) :
    ((ks.map f).flatten).Perm ((ks.map g).flatten) := by
  induction ks with
  | nil => simp
  | cons k ks ih =>
    simp only [List.map_cons, List.flatten_cons]
    exact (h k (by simp)).append (ih (fun k' hk' => h k' (List.mem_cons_of_mem _ hk')))

theorem flatten_sorted_filter_perm {α : Type} [DecidableEq α] (key : α → ℤ)
    (l : List α) :
    (((stableSort (fun a b => decide (a ≤ b)) ((l.map key).dedup)).map
      (fun k => l.filter (fun x => decide (key x = k)))).flatten).Perm l := by
  apply flatten_filter_perm key
  · exact (stableSort_perm _ _).symm.nodup (List.nodup_dedup _)
  · intro x hx
    rw [(stableSort_perm (fun a b => decide (a ≤ b)) ((l.map key).dedup)).mem_iff,
      List.mem_dedup]
    exact List.mem_map_of_mem key hx

theorem recursiveMortonCluster_map_triangle (cfg : BVHConfig) (l : List TriangleInfo)
    (maxClusterSize : ℕ) :
    ((recursiveMortonCluster cfg l maxClusterSize).map (fun t => t.triangle)).Perm
      (l.map (fun t => t.triangle)) := by
  rw [recursiveMortonCluster]
  by_cases hsize : l.length ≤ maxClusterSize
  · rw [if_pos hsize]
    exact sortTrianglesByMortonCode_map_triangle cfg l
  · rw [if_neg hsize]
    cases hsb : centroidSceneBounds l with
    | none => exact List.Perm.refl _
    | some mm =>
      obtain ⟨sceneMin, sceneMax⟩ := mm
      simp only
      rw [List.map_flatten, List.map_map]
      have h2 := (flatten_sorted_filter_perm
        (fun (t : TriangleInfo) =>
          mortonCodeWithBits (max 6 (cfg.mortonBits - 2)) t.centroid sceneMin sceneMax)
        l).map (fun t => t.triangle)
      rw [List.map_flatten, List.map_map] at h2
      refine List.Perm.trans ?_ h2
      apply flatten_perm_of_pointwise
      intro k _
      simp only [Function.comp_apply]
      exact sortTrianglesByMortonCode_map_triangle cfg _

/-- The TriangleInfo wrapping step and the presort leave the triangle
multiset unchanged: the presorted info list maps back to a permutation of
the input triangles. -/
theorem buildSync_presort_map_triangle (cfg : BVHConfig) (triangles : List Triangle) :
    ((if (triangles.enum.map (fun p => mkTriangleInfo p.2 p.1)).length > 50000 then
        recursiveMortonCluster cfg (triangles.enum.map (fun p => mkTriangleInfo p.2 p.1)) 10000
      else
        sortTrianglesByMortonCode cfg
          (triangles.enum.map (fun p => mkTriangleInfo p.2 p.1))).map
        (fun t => t.triangle)).Perm triangles := by
  have hbase : ((triangles.enum.map (fun p => mkTriangleInfo p.2 p.1)).map
      (fun t => t.triangle)) = triangles := by
    rw [List.map_map]
    have : ((fun (t : TriangleInfo) => t.triangle) ∘ fun (p : ℕ × Triangle) =>
        mkTriangleInfo p.2 p.1) = Prod.snd := by
      funext p
      rfl
    rw [this, List.enum_map_snd]
  split
  · refine (recursiveMortonCluster_map_triangle cfg _ _).trans ?_
    rw [hbase]
  · refine (sortTrianglesByMortonCode_map_triangle cfg _).trans ?_
    rw [hbase]

/-! ### Unfolding equations for the recursive builder -/

theorem buildNodeRecursive_zero (cfg : BVHConfig) (triangleInfos : List TriangleInfo)
    (reordered : List Triangle) :
    buildNodeRecursive cfg triangleInfos 0 reordered
      = emitLeaf (updateNodeBoundsOptimized triangleInfos) triangleInfos reordered := by
  rw [buildNodeRecursive]

theorem buildNodeRecursive_succ_leaf (cfg : BVHConfig) (triangleInfos : List TriangleInfo)
    (d : ℕ) (reordered : List Triangle) (h1 : triangleInfos.length ≤ cfg.maxLeafSize) :
    buildNodeRecursive cfg triangleInfos (d + 1) reordered
      = emitLeaf (updateNodeBoundsOptimized triangleInfos) triangleInfos reordered := by
  rw [buildNodeRecursive]
  simp only [if_pos h1]

theorem buildNodeRecursive_succ_splitfail (cfg : BVHConfig) (triangleInfos : List TriangleInfo)
    (d : ℕ) (reordered : List Triangle) (h1 : ¬ triangleInfos.length ≤ cfg.maxLeafSize)
    (h2 : (findBestSplitPositionSAH cfg triangleInfos
      (updateNodeBoundsOptimized triangleInfos)).success = false) :
    buildNodeRecursive cfg triangleInfos (d + 1) reordered
      = emitLeaf (updateNodeBoundsOptimized triangleInfos) triangleInfos reordered := by
  rw [buildNodeRecursive]
  simp only [if_neg h1, if_pos h2]

theorem buildNodeRecursive_succ_partfail (cfg : BVHConfig) (triangleInfos : List TriangleInfo)
    (d : ℕ) (reordered : List Triangle) (h1 : ¬ triangleInfos.length ≤ cfg.maxLeafSize)
    (h2 : ¬ (findBestSplitPositionSAH cfg triangleInfos
      (updateNodeBoundsOptimized triangleInfos)).success = false)
    (h3 : (partitionTrianglesOptimized triangleInfos
        (findBestSplitPositionSAH cfg triangleInfos
          (updateNodeBoundsOptimized triangleInfos)).axis
        (findBestSplitPositionSAH cfg triangleInfos
          (updateNodeBoundsOptimized triangleInfos)).pos).1.length = 0 ∨
      (partitionTrianglesOptimized triangleInfos
        (findBestSplitPositionSAH cfg triangleInfos
          (updateNodeBoundsOptimized triangleInfos)).axis
        (findBestSplitPositionSAH cfg triangleInfos
          (updateNodeBoundsOptimized triangleInfos)).pos).2.length = 0) :
    buildNodeRecursive cfg triangleInfos (d + 1) reordered
      = emitLeaf (updateNodeBoundsOptimized triangleInfos) triangleInfos reordered := by
  rw [buildNodeRecursive]
  simp only [if_neg h1, if_neg h2, if_pos h3]

theorem buildNodeRecursive_succ_internal (cfg : BVHConfig) (triangleInfos : List TriangleInfo)
    (d : ℕ) (reordered : List Triangle) (h1 : ¬ triangleInfos.length ≤ cfg.maxLeafSize)
    (h2 : ¬ (findBestSplitPositionSAH cfg triangleInfos
      (updateNodeBoundsOptimized triangleInfos)).success = false)
    (h3 : ¬ ((partitionTrianglesOptimized triangleInfos
        (findBestSplitPositionSAH cfg triangleInfos
          (updateNodeBoundsOptimized triangleInfos)).axis
        (findBestSplitPositionSAH cfg triangleInfos
          (updateNodeBoundsOptimized triangleInfos)).pos).1.length = 0 ∨
      (partitionTrianglesOptimized triangleInfos
        (findBestSplitPositionSAH cfg triangleInfos
          (updateNodeBoundsOptimized triangleInfos)).axis
        (findBestSplitPositionSAH cfg triangleInfos
          (updateNodeBoundsOptimized triangleInfos)).pos).2.length = 0)) :
    buildNodeRecursive cfg triangleInfos (d + 1) reordered
      = (.mk (updateNodeBoundsOptimized triangleInfos)
          (some (buildNodeRecursive cfg
            (partitionTrianglesOptimized triangleInfos
              (findBestSplitPositionSAH cfg triangleInfos
                (updateNodeBoundsOptimized triangleInfos)).axis
              (findBestSplitPositionSAH cfg triangleInfos
                (updateNodeBoundsOptimized triangleInfos)).pos).1 d reordered).1)
          (some (buildNodeRecursive cfg
            (partitionTrianglesOptimized triangleInfos
              (findBestSplitPositionSAH cfg triangleInfos
                (updateNodeBoundsOptimized triangleInfos)).axis
              (findBestSplitPositionSAH cfg triangleInfos
                (updateNodeBoundsOptimized triangleInfos)).pos).2 d
            (buildNodeRecursive cfg
              (partitionTrianglesOptimized triangleInfos
                (findBestSplitPositionSAH cfg triangleInfos
                  (updateNodeBoundsOptimized triangleInfos)).axis
                (findBestSplitPositionSAH cfg triangleInfos
                  (updateNodeBoundsOptimized triangleInfos)).pos).1 d reordered).2).1) 0 0,
         (buildNodeRecursive cfg
           (partitionTrianglesOptimized triangleInfos
             (findBestSplitPositionSAH cfg triangleInfos
               (updateNodeBoundsOptimized triangleInfos)).axis
             (findBestSplitPositionSAH cfg triangleInfos
               (updateNodeBoundsOptimized triangleInfos)).pos).2 d
           (buildNodeRecursive cfg
             (partitionTrianglesOptimized triangleInfos
               (findBestSplitPositionSAH cfg triangleInfos
                 (updateNodeBoundsOptimized triangleInfos)).axis
               (findBestSplitPositionSAH cfg triangleInfos
                 (updateNodeBoundsOptimized triangleInfos)).pos).1 d reordered).2).2) := by
  rw [buildNodeRecursive]
  simp only [if_neg h1, if_neg h2, if_neg h3]

/-! ### The build invariant -/

theorem emitLeaf_invariant (cfg : BVHConfig) (depth : ℕ) (triangleInfos : List TriangleInfo)
    (reordered : List Triangle)
    (habs : triangleInfos.length ≤ cfg.maxLeafSize ∨ depth = 0 ∨
      splitAbsorbed cfg triangleInfos) :
    BuildInvariant cfg depth triangleInfos reordered
      (emitLeaf (updateNodeBoundsOptimized triangleInfos) triangleInfos reordered) := by
  unfold BuildInvariant emitLeaf
  refine ⟨⟨triangleInfos.map (fun t => t.triangle), rfl, List.Perm.refl _⟩, ?_, ?_, ?_, rfl,
    ?_, ?_⟩
  · simp [leafRanges, isConsecutive]
  · simp [leafRanges, sumCounts]
  · intro hne
    simp only [wellFormed, decide_eq_true_eq]
    exact List.length_pos.mpr hne
  · simp [boundsLinked]
  · simp only [leafsAbsorbed]
    rcases habs with h | h | h
    · exact Or.inl h
    · exact Or.inr (Or.inl h)
    · exact Or.inr (Or.inr ⟨triangleInfos, rfl, rfl, h⟩)

theorem buildNodeRecursive_invariant (cfg : BVHConfig) :
    ∀ (depth : ℕ) (triangleInfos : List TriangleInfo) (reordered : List Triangle),
      BuildInvariant cfg depth triangleInfos reordered
        (buildNodeRecursive cfg triangleInfos depth reordered) := by
  intro depth
  induction depth with
  | zero =>
    intro infos reordered
    rw [buildNodeRecursive_zero]
    exact emitLeaf_invariant cfg 0 infos reordered (Or.inr (Or.inl rfl))
  | succ d ih =>
    intro infos reordered
    by_cases h1 : infos.length ≤ cfg.maxLeafSize
    · rw [buildNodeRecursive_succ_leaf cfg infos d reordered h1]
      exact emitLeaf_invariant cfg (d + 1) infos reordered (Or.inl h1)
    · by_cases h2 : (findBestSplitPositionSAH cfg infos
          (updateNodeBoundsOptimized infos)).success = false
      · rw [buildNodeRecursive_succ_splitfail cfg infos d reordered h1 h2]
        exact emitLeaf_invariant cfg (d + 1) infos reordered
          (Or.inr (Or.inr (Or.inl h2)))
      · by_cases h3 : (partitionTrianglesOptimized infos
            (findBestSplitPositionSAH cfg infos (updateNodeBoundsOptimized infos)).axis
            (findBestSplitPositionSAH cfg infos
              (updateNodeBoundsOptimized infos)).pos).1.length = 0 ∨
          (partitionTrianglesOptimized infos
            (findBestSplitPositionSAH cfg infos (updateNodeBoundsOptimized infos)).axis
            (findBestSplitPositionSAH cfg infos
              (updateNodeBoundsOptimized infos)).pos).2.length = 0
        · rw [buildNodeRecursive_succ_partfail cfg infos d reordered h1 h2 h3]
          exact emitLeaf_invariant cfg (d + 1) infos reordered
            (Or.inr (Or.inr (Or.inr h3)))
        · rw [buildNodeRecursive_succ_internal cfg infos d reordered h1 h2 h3]
          obtain ⟨⟨tl₁, hout₁, hperm₁⟩, hcons₁, hsum₁, hwf₁, hbounds₁, hlink₁, habs₁⟩ :=
            ih (partitionTrianglesOptimized infos
              (findBestSplitPositionSAH cfg infos (updateNodeBoundsOptimized infos)).axis
              (findBestSplitPositionSAH cfg infos
                (updateNodeBoundsOptimized infos)).pos).1 reordered
          obtain ⟨⟨tl₂, hout₂, hperm₂⟩, hcons₂, hsum₂, hwf₂, hbounds₂, hlink₂, habs₂⟩ :=
            ih (partitionTrianglesOptimized infos
              (findBestSplitPositionSAH cfg infos (updateNodeBoundsOptimized infos)).axis
              (findBestSplitPositionSAH cfg infos
                (updateNodeBoundsOptimized infos)).pos).2
              (buildNodeRecursive cfg
                (partitionTrianglesOptimized infos
                  (findBestSplitPositionSAH cfg infos
                    (updateNodeBoundsOptimized infos)).axis
                  (findBestSplitPositionSAH cfg infos
                    (updateNodeBoundsOptimized infos)).pos).1 d reordered).2
          push_neg at h3
          obtain ⟨hl1, hl2⟩ := h3
          have hpp := partitionTrianglesOptimized_eq infos
            (findBestSplitPositionSAH cfg infos (updateNodeBoundsOptimized infos)).axis
            (findBestSplitPositionSAH cfg infos (updateNodeBoundsOptimized infos)).pos
          have hfp : (partitionTrianglesOptimized infos
              (findBestSplitPositionSAH cfg infos (updateNodeBoundsOptimized infos)).axis
              (findBestSplitPositionSAH cfg infos
                (updateNodeBoundsOptimized infos)).pos).1
              = infos.filter (fun t => decide (t.centroid.getComponent
                  (findBestSplitPositionSAH cfg infos
                    (updateNodeBoundsOptimized infos)).axis
                ≤ (findBestSplitPositionSAH cfg infos
                    (updateNodeBoundsOptimized infos)).pos)) := by
            rw [hpp]
          have hfq : (partitionTrianglesOptimized infos
              (findBestSplitPositionSAH cfg infos (updateNodeBoundsOptimized infos)).axis
              (findBestSplitPositionSAH cfg infos
                (updateNodeBoundsOptimized infos)).pos).2
              = infos.filter (fun t => ! decide (t.centroid.getComponent
                  (findBestSplitPositionSAH cfg infos
                    (updateNodeBoundsOptimized infos)).axis
                ≤ (findBestSplitPositionSAH cfg infos
                    (updateNodeBoundsOptimized infos)).pos)) := by
            rw [hpp]
          have hperm0 : ((partitionTrianglesOptimized infos
              (findBestSplitPositionSAH cfg infos (updateNodeBoundsOptimized infos)).axis
              (findBestSplitPositionSAH cfg infos
                (updateNodeBoundsOptimized infos)).pos).1 ++
            (partitionTrianglesOptimized infos
              (findBestSplitPositionSAH cfg infos (updateNodeBoundsOptimized infos)).axis
              (findBestSplitPositionSAH cfg infos
                (updateNodeBoundsOptimized infos)).pos).2).Perm infos := by
            rw [hfp, hfq]
            exact List.filter_append_perm _ infos
          have hlen : (partitionTrianglesOptimized infos
              (findBestSplitPositionSAH cfg infos (updateNodeBoundsOptimized infos)).axis
              (findBestSplitPositionSAH cfg infos
                (updateNodeBoundsOptimized infos)).pos).1.length +
            (partitionTrianglesOptimized infos
              (findBestSplitPositionSAH cfg infos (updateNodeBoundsOptimized infos)).axis
              (findBestSplitPositionSAH cfg infos
                (updateNodeBoundsOptimized infos)).pos).2.length = infos.length := by
            have := hperm0.length_eq
            simpa using this
          have htl₁len : tl₁.length = (partitionTrianglesOptimized infos
              (findBestSplitPositionSAH cfg infos (updateNodeBoundsOptimized infos)).axis
              (findBestSplitPositionSAH cfg infos
                (updateNodeBoundsOptimized infos)).pos).1.length := by
            rw [hperm₁.length_eq, List.length_map]
          unfold BuildInvariant
          refine ⟨⟨tl₁ ++ tl₂, ?_, ?_⟩, ?_, ?_, ?_, rfl, ?_, ?_⟩
          · rw [hout₂, hout₁, List.append_assoc]
          · refine (hperm₁.append hperm₂).trans ?_
            rw [← List.map_append]
            exact hperm0.map _
          · simp only [leafRanges]
            rw [isConsecutive_append]
            rw [hsum₁]
            have hL2len : (buildNodeRecursive cfg
                (partitionTrianglesOptimized infos
                  (findBestSplitPositionSAH cfg infos
                    (updateNodeBoundsOptimized infos)).axis
                  (findBestSplitPositionSAH cfg infos
                    (updateNodeBoundsOptimized infos)).pos).1 d reordered).2.length
                = reordered.length + (partitionTrianglesOptimized infos
                  (findBestSplitPositionSAH cfg infos
                    (updateNodeBoundsOptimized infos)).axis
                  (findBestSplitPositionSAH cfg infos
                    (updateNodeBoundsOptimized infos)).pos).1.length := by
              rw [hout₁, List.length_append, htl₁len]
            rw [hL2len] at hcons₂
            rw [hcons₁, hcons₂]
            rfl
          · simp only [leafRanges]
            rw [sumCounts_append, hsum₁, hsum₂, hlen]
          · intro _
            simp only [wellFormed, Bool.and_eq_true]
            constructor
            · exact hwf₁ (fun h => hl1 (by rw [h]; rfl))
            · exact hwf₂ (fun h => hl2 (by rw [h]; rfl))
          · simp only [boundsLinked, Bool.and_eq_true, decide_eq_true_eq]
            refine ⟨⟨?_, hlink₁⟩, hlink₂⟩
            rw [hbounds₁, hbounds₂, hfp, hfq]
            exact updateNodeBoundsOptimized_filter_partition _ infos
          · simp only [leafsAbsorbed, Nat.add_sub_cancel]
            exact ⟨habs₁, habs₂⟩

/-! ### The invariant carried to buildSync -/

theorem buildSync_facts (cfg : BVHConfig) (triangles : List Triangle) (depth : ℕ) :
    (buildSync cfg triangles depth []).2.Perm triangles ∧
    isConsecutive (leafRanges (buildSync cfg triangles depth []).1) 0 = true ∧
    sumCounts (leafRanges (buildSync cfg triangles depth []).1) = triangles.length ∧
    (triangles ≠ [] → wellFormed (buildSync cfg triangles depth []).1 = true) ∧
    boundsLinked (buildSync cfg triangles depth []).1 = true ∧
    leafsAbsorbed cfg (buildSync cfg triangles depth []).1 depth := by
  have hbs : buildSync cfg triangles depth []
      = buildNodeRecursive cfg
        (if (triangles.enum.map (fun p => mkTriangleInfo p.2 p.1)).length > 50000 then
          recursiveMortonCluster cfg (triangles.enum.map (fun p => mkTriangleInfo p.2 p.1)) 10000
        else
          sortTrianglesByMortonCode cfg (triangles.enum.map (fun p => mkTriangleInfo p.2 p.1)))
        depth [] := rfl
  have hpre := buildSync_presort_map_triangle cfg triangles
  obtain ⟨⟨tl, hout, hperm⟩, hcons, hsum, hwf, hbounds, hlink, habs⟩ :=
    buildNodeRecursive_invariant cfg depth
      (if (triangles.enum.map (fun p => mkTriangleInfo p.2 p.1)).length > 50000 then
        recursiveMortonCluster cfg (triangles.enum.map (fun p => mkTriangleInfo p.2 p.1)) 10000
      else
        sortTrianglesByMortonCode cfg (triangles.enum.map (fun p => mkTriangleInfo p.2 p.1)))
      []
  have hSlen : (if (triangles.enum.map (fun p => mkTriangleInfo p.2 p.1)).length > 50000 then
        recursiveMortonCluster cfg (triangles.enum.map (fun p => mkTriangleInfo p.2 p.1)) 10000
      else
        sortTrianglesByMortonCode cfg
          (triangles.enum.map (fun p => mkTriangleInfo p.2 p.1))).length
      = triangles.length := by
    have := hpre.length_eq
    simpa using this
  rw [hbs]
  refine ⟨?_, ?_, ?_, ?_, hlink, habs⟩
  · rw [hout]
    simp only [List.nil_append]
    exact hperm.trans hpre
  · simpa using hcons
  · rw [hsum, hSlen]
  · intro hne
    refine hwf ?_
    intro hS
    have : triangles.length = 0 := by rw [← hSlen, hS]; rfl
    exact hne (List.length_eq_zero.mp this)

/-- Every tree has at least one leaf: the build always returns a root. -/
theorem numLeaves_pos : ∀ n : BVHNode, 0 < numLeaves n
  | .mk b (some l) (some r) off cnt => by
    have hl := numLeaves_pos l
    simp only [numLeaves]
    omega
  | .mk b none none off cnt => by simp [numLeaves]
  | .mk b (some l) none off cnt => by simp [numLeaves]
  | .mk b none (some r) off cnt => by simp [numLeaves]

/-! ### Facts about the Morton key computation -/

theorem expandBits_eq_spread : ∀ v < 1024,
    expandBits v = spreadBitsAux 10 v ∧ spreadBitsAux 10 v ≤ 153391689 := by decide

theorem spreadBitsAux_zero : ∀ b, spreadBitsAux b 0 = 0 := by
  intro b
  induction b with
  | zero => rfl
  | succ b ih => simp [spreadBitsAux, ih]

theorem spreadBitsAux_stable : ∀ b c v, b ≤ c → v < 2 ^ b →
    spreadBitsAux b v = spreadBitsAux c v := by
  intro b
  induction b with
  | zero =>
    intro c v _ hv
    interval_cases v
    rw [spreadBitsAux_zero, spreadBitsAux_zero]
  | succ b ih =>
    intro c v hbc hv
    cases c with
    | zero => omega
    | succ c =>
      simp only [spreadBitsAux]
      have h2 : 2 ^ (b + 1) = 2 * 2 ^ b := by rw [pow_succ]; ring
      have hv' : v / 2 < 2 ^ b := by omega
      rw [ih c (v / 2) (by omega) hv']

theorem toInt32_small (n : ℕ) (h : n < 2147483648) : toInt32 n = (n : ℤ) := by
  unfold toInt32
  rw [Nat.mod_eq_of_lt (by omega), if_pos h]

theorem morton3D_eq_interleave (bits x y z : ℕ) (h10 : bits ≤ 10)
    (hx : x < 2 ^ bits) (hy : y < 2 ^ bits) (hz : z < 2 ^ bits) :
    morton3D x y z = (interleave3 bits x y z : ℤ) := by
  have hpow : (2 : ℕ) ^ bits ≤ 2 ^ 10 := Nat.pow_le_pow_right (by norm_num) h10
  have hx' : x < 1024 := lt_of_lt_of_le hx hpow
  have hy' : y < 1024 := lt_of_lt_of_le hy hpow
  have hz' : z < 1024 := lt_of_lt_of_le hz hpow
  obtain ⟨hex, hbx⟩ := expandBits_eq_spread x hx'
  obtain ⟨hey, hby⟩ := expandBits_eq_spread y hy'
  obtain ⟨hez, hbz⟩ := expandBits_eq_spread z hz'
  unfold morton3D
  rw [hex, hey, hez, Nat.shiftLeft_eq, Nat.shiftLeft_eq,
    toInt32_small _ (by omega), toInt32_small _ (by omega), toInt32_small _ (by omega)]
  unfold interleave3
  rw [spreadBitsAux_stable bits 10 x h10 hx, spreadBitsAux_stable bits 10 y h10 hy,
    spreadBitsAux_stable bits 10 z h10 hz]
  push_cast
  ring

theorem sortTrianglesByMortonCode_sorted (cfg : BVHConfig) (infos : List TriangleInfo)
    (hen : cfg.useMortonCodes = true) (hth : cfg.mortonClusterThreshold ≤ infos.length) :
    ((sortTrianglesByMortonCode cfg infos).map (fun t => t.mortonCode)).Pairwise (· ≤ ·) := by
  unfold sortTrianglesByMortonCode
  rw [if_neg (show ¬ (cfg.useMortonCodes = false ∨
      infos.length < cfg.mortonClusterThreshold) by
    rintro (h | h)
    · rw [hen] at h; cases h
    · omega)]
  cases hsb : centroidSceneBounds infos with
  | none =>
    cases infos with
    | nil => simp
    | cons t ts => simp [centroidSceneBounds] at hsb
  | some mm =>
    obtain ⟨sceneMin, sceneMax⟩ := mm
    simp only [hsb]
    rw [List.pairwise_map]
    have hp := stableSort_pairwise
      (fun (a b : TriangleInfo) => decide (a.mortonCode ≤ b.mortonCode))
      (fun a b => by
        rcases Int.le_total a.mortonCode b.mortonCode with h | h
        · exact Or.inl (by simpa using h)
        · exact Or.inr (by simpa using h))
      (fun a b c hab hbc => by
        simp only [decide_eq_true_eq] at hab hbc ⊢
        omega)
      (infos.map (fun t =>
        { t with mortonCode := computeMortonCode cfg t.centroid sceneMin sceneMax }))
    exact hp.imp (by intro a b h; simpa using h)

/-! ### The claims -/

/-- C1: the claim says every execution mode of build rewrites the
caller-supplied triangle array to match the leaf ranges of the returned
tree.  The code does this only in the worker path: the synchronous path and
the worker-creation-failure fallback call buildSync(triangles, depth, [])
with a fresh empty array, discard the reordered order and leave the caller's
array as passed.  On ex9 the pipeline's reordered order differs from the
input order, so the resolved caller array cannot match the returned leaf
ranges. -/
theorem bvh_sync_modes_do_not_rewrite_caller_array :
    build defaultConfig .noWorker ex9 30
        = .ok ((buildSync defaultConfig ex9 30 []).1, ex9) ∧
    build defaultConfig .createFails ex9 30
        = .ok ((buildSync defaultConfig ex9 30 []).1, ex9) ∧
    (buildSync defaultConfig ex9 30 []).2
        = [mkTri 0, mkTri 1, mkTri 2, mkTri 3, mkTri 4, mkTri 8, mkTri 5, mkTri 6,
           mkTri 7] ∧
    (buildSync defaultConfig ex9 30 []).2 ≠ ex9 := by
  refine ⟨rfl, rfl, by with_unfolding_all rfl,
    of_decide_eq_false (by with_unfolding_all rfl)⟩

/-- C2: for every nonempty triangle array, the leaf ranges of the tree
returned by buildSync tile the interval from 0 to the input length with no
gap and no overlap: they are consecutive from offset 0, their counts sum to
the input length, the reordered array has that length, and every index below
the input length lies in exactly one range while indices beyond it lie in
none. -/
theorem bvh_leaf_ranges_partition (cfg : BVHConfig) (triangles : List Triangle)
    (depth : ℕ) (_hne : triangles ≠ []) :
    isConsecutive (leafRanges (buildSync cfg triangles depth []).1) 0 = true ∧
    sumCounts (leafRanges (buildSync cfg triangles depth []).1) = triangles.length ∧
    (buildSync cfg triangles depth []).2.length = triangles.length ∧
    (∀ k, k < triangles.length →
      (leafRanges (buildSync cfg triangles depth []).1).countP
        (fun r => decide (r.1 ≤ k ∧ k < r.1 + r.2)) = 1) ∧
    ∀ k, triangles.length ≤ k →
      (leafRanges (buildSync cfg triangles depth []).1).countP
        (fun r => decide (r.1 ≤ k ∧ k < r.1 + r.2)) = 0 := by
  obtain ⟨hperm, hcons, hsum, _, _, _⟩ := buildSync_facts cfg triangles depth
  refine ⟨hcons, hsum, hperm.length_eq, ?_, ?_⟩
  · intro k hk
    rw [isConsecutive_countP _ 0 hcons k, hsum, if_pos ⟨Nat.zero_le k, by omega⟩]
  · intro k hk
    rw [isConsecutive_countP _ 0 hcons k, hsum, if_neg (by omega)]

/-- Witness for C2, at the 9-triangle input ex9. -/
theorem bvh_leaf_ranges_partition_witness :
    isConsecutive (leafRanges (buildSync defaultConfig ex9 30 []).1) 0 = true ∧
    sumCounts (leafRanges (buildSync defaultConfig ex9 30 []).1) = ex9.length ∧
    (buildSync defaultConfig ex9 30 []).2.length = ex9.length ∧
    (∀ k, k < ex9.length →
      (leafRanges (buildSync defaultConfig ex9 30 []).1).countP
        (fun r => decide (r.1 ≤ k ∧ k < r.1 + r.2)) = 1) ∧
    ∀ k, ex9.length ≤ k →
      (leafRanges (buildSync defaultConfig ex9 30 []).1).countP
        (fun r => decide (r.1 ≤ k ∧ k < r.1 + r.2)) = 0 :=
  bvh_leaf_ranges_partition defaultConfig ex9 30 (by decide)

/-- C3: for every input, depth and configuration, every internal node of the
tree returned by buildSync has bounds exactly equal to the union of its two
children's bounds. -/
theorem bvh_internal_bounds_eq_union (cfg : BVHConfig) (triangles : List Triangle)
    (depth : ℕ) :
    boundsLinked (buildSync cfg triangles depth []).1 = true :=
  (buildSync_facts cfg triangles depth).2.2.2.2.1

/-- Counterexample to C4 as stated: the empty build returns a root that is a
leaf with triangleCount 0, violating `both children absent implies count > 0`
(the spec itself documents the empty-input root as a leaf with count 0). -/
theorem bvh_empty_build_root_leaf_count_zero :
    nodeLeftChild (buildSync defaultConfig [] 30 []).1 = none ∧
    nodeRightChild (buildSync defaultConfig [] 30 []).1 = none ∧
    nodeTriangleCount (buildSync defaultConfig [] 30 []).1 = 0 ∧
    wellFormed (buildSync defaultConfig [] 30 []).1 = false :=
  ⟨rfl, rfl, rfl, rfl⟩

/-- C4 amended: for every build of a nonempty triangle array, every node of
the returned tree has either both children present or both absent with a
positive triangle count; no node has exactly one child and no leaf is
empty. -/
theorem bvh_wellFormed_of_nonempty (cfg : BVHConfig) (triangles : List Triangle)
    (depth : ℕ) (_hne : triangles ≠ []) :
    wellFormed (buildSync cfg triangles depth []).1 = true :=
  (buildSync_facts cfg triangles depth).2.2.2.1 _hne

/-- Witness for the amended C4, at a one-triangle input. -/
theorem bvh_wellFormed_of_nonempty_witness :
    wellFormed (buildSync defaultConfig [mkTri 0] 30 []).1 = true :=
  bvh_wellFormed_of_nonempty defaultConfig [mkTri 0] 30 (by decide)

/-- Counterexample to C5 as stated: nine triangles sharing one centroid
defeat all three split tiers, so the root is emitted as a leaf with count 9,
which exceeds maxLeafSize 8 while the remaining depth is 30, not 0. -/
theorem bvh_leaf_cap_claim_fails :
    defaultConfig.maxLeafSize = 8 ∧
    nodeLeftChild (buildSync defaultConfig ex9deg 30 []).1 = none ∧
    nodeTriangleCount (buildSync defaultConfig ex9deg 30 []).1 = 9 ∧
    leafDepthOK 8 (buildSync defaultConfig ex9deg 30 []).1 30 = false := by
  refine ⟨rfl, ?_, ?_, ?_⟩ <;> with_unfolding_all rfl

/-- C5 amended: every leaf of the tree returned by buildSync has count at
most maxLeafSize, or was produced at remaining depth 0, or carries a subset
(matching its count and bounds) on which the split selector failed or the
proposed partition was one-sided, in which case the builder absorbs the
failure as a leaf. -/
theorem bvh_leaf_cap_or_depth_or_absorbed (cfg : BVHConfig) (triangles : List Triangle)
    (depth : ℕ) :
    leafsAbsorbed cfg (buildSync cfg triangles depth []).1 depth :=
  (buildSync_facts cfg triangles depth).2.2.2.2.2

/-- C6: for every nonempty input (with exact rational, hence finite,
coordinates) and every depth, buildSync terminates with a root: the model is
a total function, the returned reordered array is a permutation of the input
(every triangle was consumed, none dropped or duplicated), the leaf counts
sum to the input length, and the tree has at least one leaf.  Split failures
are absorbed as leaves and never surface as errors: the builder has no error
path at all. -/
theorem bvh_build_completes_nonempty (cfg : BVHConfig) (triangles : List Triangle)
    (depth : ℕ) (_hne : triangles ≠ []) :
    (buildSync cfg triangles depth []).2.Perm triangles ∧
    sumCounts (leafRanges (buildSync cfg triangles depth []).1) = triangles.length ∧
    0 < numLeaves (buildSync cfg triangles depth []).1 :=
  ⟨(buildSync_facts cfg triangles depth).1,
   (buildSync_facts cfg triangles depth).2.2.1,
   numLeaves_pos _⟩

/-- Witness for C6, at the fully degenerate nine-triangle input on which
every split tier fails. -/
theorem bvh_build_completes_nonempty_witness :
    (buildSync defaultConfig ex9deg 30 []).2.Perm ex9deg ∧
    sumCounts (leafRanges (buildSync defaultConfig ex9deg 30 []).1) = ex9deg.length ∧
    0 < numLeaves (buildSync defaultConfig ex9deg 30 []).1 :=
  bvh_build_completes_nonempty defaultConfig ex9deg 30 (by decide)

/-- C7: when the Worker constructor throws, build resolves with the root of
the synchronous pipeline run in the caller's context, behaves exactly like
the no-worker branch, and never rejects. -/
theorem bvh_worker_creation_failure_falls_back (cfg : BVHConfig)
    (triangles : List Triangle) (depth : ℕ) :
    build cfg .createFails triangles depth
        = .ok ((buildSync cfg triangles depth []).1, triangles) ∧
    build cfg .createFails triangles depth = build cfg .noWorker triangles depth ∧
    ∀ msg, build cfg .createFails triangles depth ≠ .error msg := by
  refine ⟨rfl, rfl, ?_⟩
  intro msg h
  simp [build] at h

/-- Counterexample to C8 as stated: with the configurable bit depth 11 (which
setMortonConfig accepts), the quantized coordinate z = 1024 fits in 11 bits,
but the computed key is 0 because expandBits places bit 10 at position 30 and
the JS 32-bit left shift by 2 then discards it, while the true 33-bit
interleaving is 2^32. -/
theorem morton_key_not_interleaving_at_11_bits :
    (setMortonConfig defaultConfig none (some 11) none).mortonBits = 11 ∧
    (1024 : ℕ) ≤ 2 ^ 11 - 1 ∧
    morton3D 0 0 1024 = 0 ∧
    (interleave3 11 0 0 1024 : ℤ) = 4294967296 ∧
    morton3D 0 0 1024 ≠ (interleave3 11 0 0 1024 : ℤ) := by
  have h1 : morton3D 0 0 1024 = 0 := by with_unfolding_all rfl
  have h2 : (interleave3 11 0 0 1024 : ℤ) = 4294967296 := by with_unfolding_all rfl
  refine ⟨rfl, by norm_num, h1, h2, ?_⟩
  intro h
  rw [h1, h2] at h
  exact absurd h (by norm_num)

/-- C8 amended: for bit depths up to 10 the computed key is exactly the
bit-by-bit interleaving of the three quantized B-bit integers, and whenever
the presort runs (enabled and at or above the clustering threshold) it leaves
the primitives sorted ascending by their Morton key; for depths 11 to 16 the
32-bit operations truncate high bits and the claim fails. -/
theorem morton_key_interleaves_up_to_10_bits :
    (∀ bits x y z : ℕ, 6 ≤ bits → bits ≤ 10 → x < 2 ^ bits → y < 2 ^ bits →
        z < 2 ^ bits → morton3D x y z = (interleave3 bits x y z : ℤ)) ∧
    ∀ (cfg : BVHConfig) (infos : List TriangleInfo), cfg.useMortonCodes = true →
      cfg.mortonClusterThreshold ≤ infos.length →
      ((sortTrianglesByMortonCode cfg infos).map
        (fun t => t.mortonCode)).Pairwise (· ≤ ·) :=
  ⟨fun bits x y z _ h10 hx hy hz => morton3D_eq_interleave bits x y z h10 hx hy hz,
   fun cfg infos hen hth => sortTrianglesByMortonCode_sorted cfg infos hen hth⟩

/-- Witness for the amended C8: the key of (3, 5, 6) at 10 bits, and the
presort of 16 spread triangles at the minimum clustering threshold. -/
theorem morton_key_interleaves_up_to_10_bits_witness :
    morton3D 3 5 6 = (interleave3 10 3 5 6 : ℤ) ∧
    cfg16.useMortonCodes = true ∧
    cfg16.mortonClusterThreshold ≤ infos16.length ∧
    ((sortTrianglesByMortonCode cfg16 infos16).map
      (fun t => t.mortonCode)).Pairwise (· ≤ ·) :=
  ⟨morton_key_interleaves_up_to_10_bits.1 10 3 5 6 (by decide) (by decide) (by decide)
    (by decide) (by decide),
   by decide, by decide,
   morton_key_interleaves_up_to_10_bits.2 cfg16 infos16 (by decide) (by decide)⟩

/-- Counterexample to C9 as stated: ten triangles with pairwise distinct
centroids spread on the x axis (nine clustered, one far away) build into a
tree with three leaves, not two: the first split separates 9 from 1 and the
nine-triangle side, still above the leaf cap, splits again. -/
theorem bvh_ten_clustered_triangles_three_leaves :
    (ex10cluster.map (fun t => (mkTriangleInfo t 0).centroid)).Nodup ∧
    numLeaves (buildSync defaultConfig ex10cluster 30 []).1 = 3 ∧
    numLeaves (buildSync defaultConfig ex10cluster 30 []).1 ≠ 2 := by
  have h3 : numLeaves (buildSync defaultConfig ex10cluster 30 []).1 = 3 := by
    with_unfolding_all rfl
  refine ⟨of_decide_eq_true (by with_unfolding_all rfl), h3, ?_⟩
  rw [h3]
  decide

/-- C9 amended: exactly two leaves are not guaranteed for every 10-triangle
input, but for the scenario input with ten distinct evenly spread centroids
the builder performs at least one split (the root has both children) and the
tree has exactly 2 leaves whose counts sum to 10. -/
theorem bvh_ten_even_triangles_two_leaves :
    (ex10even.map (fun t => (mkTriangleInfo t 0).centroid)).Nodup ∧
    (nodeLeftChild (buildSync defaultConfig ex10even 30 []).1).isSome = true ∧
    (nodeRightChild (buildSync defaultConfig ex10even 30 []).1).isSome = true ∧
    numLeaves (buildSync defaultConfig ex10even 30 []).1 = 2 ∧
    sumCounts (leafRanges (buildSync defaultConfig ex10even 30 []).1) = 10 := by
  refine ⟨of_decide_eq_true (by with_unfolding_all rfl), ?_, ?_, ?_, ?_⟩ <;>
    with_unfolding_all rfl

/-- C10: the partition pass is a stable two-way split: the left output is
exactly the subsequence of inputs whose centroid component on the axis is at
most the split position, the right output exactly the complementary
subsequence (component greater than the split position), and together they
are a permutation of the input, so each input lands on exactly one side with
relative order preserved by filter. -/
theorem bvh_partition_filters (triangleInfos : List TriangleInfo) (axis : ℕ)
    (splitPos : ℚ) :
    (partitionTrianglesOptimized triangleInfos axis splitPos).1
        = triangleInfos.filter
            (fun t => decide (t.centroid.getComponent axis ≤ splitPos)) ∧
    (partitionTrianglesOptimized triangleInfos axis splitPos).2
        = triangleInfos.filter
            (fun t => ! decide (t.centroid.getComponent axis ≤ splitPos)) ∧
    ((partitionTrianglesOptimized triangleInfos axis splitPos).1
        ++ (partitionTrianglesOptimized triangleInfos axis splitPos).2).Perm
      triangleInfos := by
  have h := partitionTrianglesOptimized_eq triangleInfos axis splitPos
  refine ⟨by rw [h], by rw [h], ?_⟩
  rw [h]
  exact List.filter_append_perm _ triangleInfos
